import Mathlib

/-!
Shallow embedding of `src/src/components/GroupNavigation.tsx`, the
viewport-synchronized section navigator ("scrollspy with pin transition").

Modelling conventions:
* JS numbers that hold pixel offsets are modelled as `Int`.
* `document.getElementById(...)` presence and geometry are inputs: an
  `Option` value carries the element's measured geometry when it exists.
* A DOM rectangle's document-relative top (`getBoundingClientRect().top
  + window.scrollY`) is passed directly as one `Int`.
* Optional callback props (`onPinChange`, `onGroupClick`) are modelled by a
  `Bool` flag saying whether the prop was supplied, plus, in the result, the
  argument the callback is invoked with (`Option` = invoked or not).
* The optional `isPinned : boolean | undefined` prop is modelled as a `Bool`:
  in the source it is only used in the boolean tests `!isPinned` and
  `isPinned`, for which `undefined` behaves exactly like `false`.
* JS `parseInt` may return `NaN`; the model returns `Option Int`, `none`
  standing for `NaN`.
-/

namespace GroupNavigation

/-- A group entry, mirroring the fields of `GroupWithSites` that the
navigation component reads (`group.id`, `group.name`). -/
structure Group where
  id : Nat
  name : String
deriving DecidableEq, Repr

/-- Result of `getBoundingClientRect()` restricted to the fields the
component reads. -/
structure Rect where
  top : Int
  left : Int
  height : Int
deriving DecidableEq, Repr

/-- The `navPosition` state: `{ top, left, height }`. -/
structure NavPos where
  top : Int
  left : Int
  height : Int
deriving DecidableEq, Repr

/-- Little-endian decimal digits of a natural number, with explicit fuel
(enough fuel is always supplied by `digitsRev`).  Embeds the digit sequence
produced by the JS template-literal number-to-string coercion. -/
def digitsRevCore : Nat → Nat → List Nat
  | 0, _ => []
  | fuel + 1, n => if n = 0 then [] else n % 10 :: digitsRevCore fuel (n / 10)

/-- Little-endian decimal digits of `n` (empty for `0`). -/
def digitsRev (n : Nat) : List Nat := digitsRevCore n n

/-- Decimal rendering of a natural number, embedding the JS coercion
`${group.id}` of a nonnegative integer id to a string. -/
def natToString (n : Nat) : String :=
  if n = 0 then "0" else String.mk (((digitsRev n).reverse).map Nat.digitChar)

/-- The derived per-group DOM id, `group-${group.id}`. -/
def groupElemId (id : Nat) : String := "group-" ++ natToString id

/-- JS `String.prototype.replace` with a plain-string pattern and empty
replacement: removes the first occurrence of `pat`, scanning left to right
(character-list version). -/
def replaceFirstAux (pat : List Char) : List Char → List Char
  | [] => []
  | c :: rest =>
    if pat.isPrefixOf (c :: rest) then (c :: rest).drop pat.length
    else c :: replaceFirstAux pat rest

/-- JS `s.replace(pat, '')` (first occurrence only). -/
def replaceFirst (s pat : String) : String :=
  String.mk (replaceFirstAux pat.data s.data)

/-- Numeric value of a decimal digit character. -/
def digitVal (c : Char) : Nat := c.toNat - 48

/-- Numeric value of a hexadecimal digit character. -/
def hexVal (c : Char) : Nat :=
  if c.isDigit then c.toNat - 48
  else if 'a' ≤ c ∧ c ≤ 'f' then c.toNat - 87
  else c.toNat - 55

/-- Hexadecimal digit test (JS `parseInt` hex alphabet). -/
def isHexDigitJS (c : Char) : Bool :=
  c.isDigit || ('a' ≤ c && c ≤ 'f') || ('A' ≤ c && c ≤ 'F')

/-- JS `parseInt(s)` with no radix argument: trim leading whitespace, read an
optional sign, parse `0x`/`0X`-prefixed hexadecimal or else decimal, take the
longest digit prefix, and return `NaN` (here `none`) when no digit is found. -/
def parseIntJS (s : String) : Option Int :=
  let l0 := s.data.dropWhile Char.isWhitespace
  let l1 := if l0.head? = some '-' ∨ l0.head? = some '+' then l0.tail else l0
  let v : Option Nat :=
    if l1.head? = some '0' ∧ (l1.tail.head? = some 'x' ∨ l1.tail.head? = some 'X')
    then
      let ds := (l1.drop 2).takeWhile isHexDigitJS
      if ds.isEmpty then none
      else some (ds.foldl (fun a c => 16 * a + hexVal c) 0)
    else
      let ds := l1.takeWhile Char.isDigit
      if ds.isEmpty then none
      else some (ds.foldl (fun a c => 10 * a + digitVal c) 0)
  match v with
  | none => none
  | some n => some (if l0.head? = some '-' then -(n : Int) else (n : Int))

/-- The `updateNavPosition` closure (lines 36-48): when both the
`first-group-marker` element and the navigator container exist, store a fresh
snapshot `{ top := marker.top, left := nav.left, height := nav.height }`;
when either is absent, the probe is a no-op and the previous value is kept. -/
def updateNavPosition (firstGroupRect : Option Rect) (navRect : Option Rect)
    (pos : NavPos) : NavPos :=
  match firstGroupRect, navRect with
  | some fg, some nv => { top := fg.top, left := nv.left, height := nv.height }
  | _, _ => pos

/-- The `handleScroll` closure (lines 63-86).  Inputs: whether
`navRef.current` exists, the marker's document-relative top when the
`first-group-marker` element exists, the stored `navPosition.top` fallback,
the current `window.scrollY`, the `isPinned` prop, whether the `onPinChange`
prop was supplied, and the current `isSticky` state.  Output: the new
`isSticky` state and the argument `onPinChange` is invoked with, if any. -/
def handleScroll (navPresent : Bool) (markerDocTop : Option Int)
    (navPosTop : Int) (scrollY : Int) (isPinned : Bool)
    (hasOnPinChange : Bool) (isSticky : Bool) : Bool × Option Bool :=
  if navPresent = false then (isSticky, none)
  else
    let firstGroupTop := markerDocTop.getD navPosTop
    if scrollY > firstGroupTop then
      (true, if hasOnPinChange && !isPinned then some true else none)
    else
      (false, if hasOnPinChange && isPinned then some false else none)

/-- Closed-loop scroll-trace semantics of `handleScroll`: one call per scroll
event with the geometry snapshot held fixed, under the intended `isPinned`
protocol of the component (the parent stores each `onPinChange(b)` value and
supplies it back as the `isPinned` prop before the next scroll event, which
is what the `[navPosition, onPinChange, isPinned]` effect dependencies
re-subscribe for).  Returns the concatenated list of `onPinChange`
arguments. -/
def pinRun (markerDocTop : Option Int) (navPosTop : Int) :
    Bool → Bool → List Int → List Bool
  | _, _, [] => []
  | isPinned, isSticky, y :: ys =>
    let r := handleScroll true markerDocTop navPosTop y isPinned true isSticky
    r.2.toList ++ pinRun markerDocTop navPosTop (r.2.getD isPinned) r.1 ys

/-- Modelled from the spec (section 4.5): the notification sequence that
emits the newly computed pin state exactly when it differs from the
previously known state, and nothing otherwise. -/
def specNotifySeq : Bool → List Bool → List Bool
  | _, [] => []
  | p, s :: ss => if s = p then specNotifySeq p ss else s :: specNotifySeq s ss

/-- The callback of the `IntersectionObserver` created for group `gid`
(lines 107-113): for each delivered entry, if `entry.isIntersecting` set
`activeGroupId` to `group-${group.id}`, otherwise leave it unchanged. -/
def observerCallback (gid : Nat) (entries : List Bool)
    (active : Option String) : Option String :=
  entries.foldl (fun a isInter => if isInter then some (groupElemId gid) else a)
    active

/-- Delivery of a sequence of intersection events across observers: each
event is a pair of the observed group's id and the entry list handed to that
group's callback, processed in arrival order against `activeGroupId`. -/
def deliverEvents (active : Option String) (events : List (Nat × List Bool)) :
    Option String :=
  events.foldl (fun a ev => observerCallback ev.1 ev.2 a) active

/-- One primitive action of the observers effect, for stating lifecycle
ordering: disconnecting an old observer or creating-and-registering a new
one, identified by its `group-${id}` key. -/
inductive ObsAction where
  | dispose (key : String)
  | create (key : String)
deriving DecidableEq, Repr

/-- The observers effect body (lines 95-122): first disconnect every observer
in `observerRefs.current` and reset the map, then for each group whose
`group-${id}` element exists create an observer and register it under that
key.  Inputs: which group ids have a DOM element, the keys previously held in
`observerRefs.current`, and the group list.  Output: the chronological action
trace and the keys registered afterwards (group ids are unique in the data
model, so keyed-map assignment and list append agree). -/
def observersEffect (domHasElem : Nat → Bool) (oldKeys : List String)
    (groups : List Group) : List ObsAction × List String :=
  groups.foldl
    (fun acc g =>
      if domHasElem g.id then
        (acc.1 ++ [ObsAction.create (groupElemId g.id)],
         acc.2 ++ [groupElemId g.id])
      else acc)
    (oldKeys.map ObsAction.dispose, [])

/-- One primitive action of `handleNavClick`, in execution order: the
`setTooltipOpen` functional update, the issued smooth scroll, and the
`onGroupClick` emission (`none` payload = `NaN`). -/
inductive NavEffect where
  | setTooltip (key : String) (v : Bool)
  | scrollTo (top : Int)
  | emitGroupClick (id : Option Int)
deriving DecidableEq, Repr

/-- The `handleNavClick` closure (lines 132-155) as its chronological effect
list.  Inputs: the clicked `groupId` string, the target element's
document-relative top when `document.getElementById(groupId)` finds it, the
current `isSticky` state, `navPosition.height`, and whether the
`onGroupClick` prop was supplied. -/
def handleNavClick (groupId : String) (elemDocTop : Option Int)
    (isSticky : Bool) (navHeight : Int) (hasOnGroupClick : Bool) :
    List NavEffect :=
  NavEffect.setTooltip groupId false ::
    ((match elemDocTop with
      | some t =>
        [NavEffect.scrollTo (t - (if isSticky then navHeight + 20 else 20))]
      | none => []) ++
     (if hasOnGroupClick then
        [NavEffect.emitGroupClick (parseIntJS (replaceFirst groupId "group-"))]
      else []))

/-- The scroll targets issued by an effect list. -/
def scrollTargets (l : List NavEffect) : List Int :=
  l.filterMap fun e =>
    match e with
    | NavEffect.scrollTo t => some t
    | _ => none

/-- The tooltip-map writes performed by an effect list. -/
def tooltipWrites (l : List NavEffect) : List (String × Bool) :=
  l.filterMap fun e =>
    match e with
    | NavEffect.setTooltip k v => some (k, v)
    | _ => none

/-- The `onGroupClick` emissions performed by an effect list (`none` payload
= `NaN`). -/
def emissions (l : List NavEffect) : List (Option Int) :=
  l.filterMap fun e =>
    match e with
    | NavEffect.emitGroupClick i => some i
    | _ => none

/-- The rendered element ids (lines 174-281): `null` for an empty group
list, otherwise the hidden `first-group-marker` plus one list entry per
group. -/
def render (groups : List Group) : Option (List String) :=
  if groups.length = 0 then none
  else some ("first-group-marker" :: groups.map fun g => groupElemId g.id)

/-! Auxiliary lemmas about the decimal rendering and `parseIntJS`. -/

theorem digitsRevCore_lt_ten : ∀ fuel n, ∀ d ∈ digitsRevCore fuel n, d < 10 := by
  intro fuel
  induction fuel with
  | zero => intro n d hd; simp [digitsRevCore] at hd
  | succ fuel ih =>
    intro n d hd
    by_cases h : n = 0
    · simp [digitsRevCore, h] at hd
    · simp [digitsRevCore, h] at hd
      rcases hd with h1 | h2
      · omega
      · exact ih _ d h2

theorem digitsRevCore_foldr : ∀ fuel n, n ≤ fuel →
    (digitsRevCore fuel n).foldr (fun d a => 10 * a + d) 0 = n := by
  intro fuel
  induction fuel with
  | zero =>
    intro n h
    have hn : n = 0 := by omega
    subst hn
    simp [digitsRevCore]
  | succ fuel ih =>
    intro n h
    by_cases h0 : n = 0
    · simp [digitsRevCore, h0]
    · have hdiv : n / 10 ≤ fuel := by
        have := Nat.div_lt_self (Nat.pos_of_ne_zero h0) (by norm_num : 1 < 10)
        omega
      simp [digitsRevCore, h0, ih _ hdiv]
      omega

theorem digitsRev_ne_nil (n : Nat) (h : n ≠ 0) : digitsRev n ≠ [] := by
  cases n with
  | zero => exact absurd rfl h
  | succ m => simp [digitsRev, digitsRevCore]

theorem digitChar_facts : ∀ d, d < 10 → (Nat.digitChar d).isDigit = true ∧
    (Nat.digitChar d).isWhitespace = false ∧ Nat.digitChar d ≠ '-' ∧
    Nat.digitChar d ≠ '+' ∧ Nat.digitChar d ≠ 'x' ∧ Nat.digitChar d ≠ 'X' ∧
    digitVal (Nat.digitChar d) = d := by decide

theorem parseIntJS_digitList (d0 : Nat) (l : List Nat)
    (hlt : ∀ d ∈ d0 :: l, d < 10) :
    parseIntJS (String.mk ((d0 :: l).map Nat.digitChar)) =
      some (((d0 :: l).foldl (fun a d => 10 * a + d) 0 : Nat) : Int) := by
  have h0 := digitChar_facts d0 (hlt d0 (by simp))
  have hdig : ∀ c ∈ (d0 :: l).map Nat.digitChar, c.isDigit = true := by
    intro c hc
    simp only [List.mem_map] at hc
    obtain ⟨d, hd, rfl⟩ := hc
    exact (digitChar_facts d (hlt d hd)).1
  have hdw : List.dropWhile Char.isWhitespace (List.map Nat.digitChar (d0 :: l)) =
      List.map Nat.digitChar (d0 :: l) := by
    simp [List.map_cons, List.dropWhile_cons, h0.2.1]
  have hneg : ¬((List.map Nat.digitChar (d0 :: l)).head? = some '-' ∨
      (List.map Nat.digitChar (d0 :: l)).head? = some '+') := by
    simp [List.map_cons, h0.2.2.1, h0.2.2.2.1]
  have hhex : ¬((List.map Nat.digitChar (d0 :: l)).head? = some '0' ∧
      ((List.map Nat.digitChar (d0 :: l)).tail.head? = some 'x' ∨
       (List.map Nat.digitChar (d0 :: l)).tail.head? = some 'X')) := by
    rintro ⟨-, hx⟩
    cases l with
    | nil => simp at hx
    | cons d1 t =>
      have h1 := digitChar_facts d1 (hlt d1 (by simp))
      simp [List.map_cons, h1.2.2.2.2.1, h1.2.2.2.2.2.1] at hx
  have hminus : ¬((List.map Nat.digitChar (d0 :: l)).head? = some '-') := by
    simp [List.map_cons, h0.2.2.1]
  have htake : List.takeWhile Char.isDigit (List.map Nat.digitChar (d0 :: l)) =
      List.map Nat.digitChar (d0 :: l) :=
    List.takeWhile_eq_self_iff.mpr hdig
  unfold parseIntJS
  simp only [hdw, if_neg hneg, if_neg hhex, htake]
  simp only [List.map_cons, List.isEmpty_cons, Bool.false_eq_true, if_false]
  have hminus2 : ¬((d0.digitChar :: List.map Nat.digitChar l).head? = some '-') := by
    simp [h0.2.2.1]
  rw [if_neg hminus2]
  have hfold : ∀ (L : List Nat) (a : Nat), (∀ d ∈ L, d < 10) →
      List.foldl (fun x c => 10 * x + digitVal c) a (L.map Nat.digitChar) =
      List.foldl (fun x d => 10 * x + d) a L := by
    intro L
    induction L with
    | nil => intro a _; rfl
    | cons d t ih =>
      intro a hL
      simp only [List.map_cons, List.foldl_cons]
      rw [(digitChar_facts d (hL d (by simp))).2.2.2.2.2.2]
      exact ih _ (fun e he => hL e (by simp [he]))
  have hf := hfold (d0 :: l) 0 hlt
  simp only [List.map_cons] at hf
  rw [hf]

theorem parseIntJS_natToString (n : Nat) :
    parseIntJS (natToString n) = some (n : Int) := by
  by_cases h : n = 0
  · subst h
    decide
  · unfold natToString
    rw [if_neg h]
    obtain ⟨d0, t, hcons⟩ := List.exists_cons_of_ne_nil
      (by simp [digitsRev_ne_nil n h] : (digitsRev n).reverse ≠ [])
    have hlt : ∀ d ∈ d0 :: t, d < 10 := by
      rw [← hcons]
      intro d hd
      exact digitsRevCore_lt_ten n n d (List.mem_reverse.mp hd)
    rw [hcons, parseIntJS_digitList d0 t hlt, ← hcons]
    rw [List.foldl_reverse]
    have := digitsRevCore_foldr n n (le_refl n)
    simp only [digitsRev]
    norm_num
    exact this

theorem natToString_injective : Function.Injective natToString := by
  intro a b hab
  have ha := parseIntJS_natToString a
  have hb := parseIntJS_natToString b
  rw [hab, hb] at ha
  simp only [Option.some.injEq] at ha
  exact_mod_cast ha.symm

theorem groupElemId_injective : Function.Injective groupElemId := by
  intro a b hab
  unfold groupElemId at hab
  apply natToString_injective
  apply String.ext
  have hdata : ("group-" ++ natToString a).data = ("group-" ++ natToString b).data := by
    rw [hab]
  simp only [String.data_append] at hdata
  exact List.append_cancel_left hdata

theorem isPrefixOf_append_self (l r : List Char) :
    l.isPrefixOf (l ++ r) = true := by
  induction l with
  | nil => simp [List.isPrefixOf]
  | cons c t ih => simp [List.isPrefixOf, ih]

theorem replaceFirstAux_strips_pattern (pat rest : List Char) (h : pat ≠ []) :
    replaceFirstAux pat (pat ++ rest) = rest := by
  cases pat with
  | nil => exact absurd rfl h
  | cons c p =>
    have hpre : (c :: p).isPrefixOf (c :: (p ++ rest)) = true := by
      rw [← List.cons_append]
      exact isPrefixOf_append_self (c :: p) rest
    rw [List.cons_append]
    show (if (c :: p).isPrefixOf (c :: (p ++ rest)) then
            (c :: (p ++ rest)).drop (c :: p).length
          else c :: replaceFirstAux (c :: p) (p ++ rest)) = rest
    rw [if_pos hpre, ← List.cons_append]
    exact List.drop_left (c :: p) rest

theorem replaceFirst_groupElemId (n : Nat) :
    replaceFirst (groupElemId n) "group-" = natToString n := by
  unfold replaceFirst groupElemId
  apply String.ext
  show replaceFirstAux "group-".data ("group-" ++ natToString n).data =
    (natToString n).data
  rw [String.data_append]
  exact replaceFirstAux_strips_pattern "group-".data (natToString n).data
    (by decide)

/-! Auxiliary lemmas about the intersection-observer model. -/

theorem observerCallback_eq_or (gid : Nat) (entries : List Bool) :
    ∀ a : Option String, observerCallback gid entries a = a ∨
      observerCallback gid entries a = some (groupElemId gid) := by
  induction entries with
  | nil => intro a; left; rfl
  | cons e es ih =>
    intro a
    cases e
    · simpa [observerCallback, List.foldl_cons] using ih a
    · rcases ih (some (groupElemId gid)) with hc | hc <;> right <;>
        simpa [observerCallback, List.foldl_cons] using hc

theorem deliverEvents_isSome (events : List (Nat × List Bool)) :
    ∀ a : Option String, a.isSome = true → (deliverEvents a events).isSome = true := by
  induction events with
  | nil => intro a h; exact h
  | cons ev evs ih =>
    intro a h
    show (deliverEvents (observerCallback ev.1 ev.2 a) evs).isSome = true
    apply ih
    rcases observerCallback_eq_or ev.1 ev.2 a with hc | hc <;> rw [hc] <;> simp_all

/-! Auxiliary lemma characterizing the observers effect fold. -/

theorem observersEffect_foldl (domHasElem : Nat → Bool) :
    ∀ (groups : List Group) (tr : List ObsAction) (ks : List String),
      groups.foldl
        (fun acc g =>
          if domHasElem g.id then
            (acc.1 ++ [ObsAction.create (groupElemId g.id)],
             acc.2 ++ [groupElemId g.id])
          else acc)
        (tr, ks) =
      (tr ++ (groups.filter (fun g => domHasElem g.id)).map
          (fun g => ObsAction.create (groupElemId g.id)),
       ks ++ (groups.filter (fun g => domHasElem g.id)).map
          (fun g => groupElemId g.id)) := by
  intro groups
  induction groups with
  | nil => intro tr ks; simp
  | cons g gs ih =>
    intro tr ks
    by_cases hg : domHasElem g.id <;>
      simp [List.foldl_cons, List.filter_cons, hg, ih, List.append_assoc]

/-! Claim theorems. -/

/-- C1: on every scroll evaluation (with the navigator container present),
the new `isSticky` state is `true` exactly when `window.scrollY` strictly
exceeds the anchor top; the threshold is the live marker's document-relative
top when the `first-group-marker` element exists, and the stored
`navPosition.top` snapshot when it does not. -/
theorem pin_state_matches_scroll_threshold
    (markerTop navPosTop scrollY : Int) (isPinned hasCb isSticky : Bool) :
    ((handleScroll true (some markerTop) navPosTop scrollY isPinned hasCb
        isSticky).1 = true ↔ markerTop < scrollY) ∧
    ((handleScroll true none navPosTop scrollY isPinned hasCb
        isSticky).1 = true ↔ navPosTop < scrollY) := by
  constructor
  · by_cases hy : markerTop < scrollY <;> simp [handleScroll, hy]
  · by_cases hy : navPosTop < scrollY <;> simp [handleScroll, hy]

/-- C2: under the component's `isPinned` protocol (the parent stores each
notified value and supplies it back as the prop), the `onPinChange` calls
produced by a scroll trace over a fixed geometry snapshot are exactly the
changes of the computed pin state relative to the last known value: the
spec-side emit-on-change sequence.  In particular a trace that crosses the
threshold once upward and once back down fires `true` then `false`, once
each, and ticks staying on one side fire nothing. -/
theorem pin_notifications_exactly_on_change :
    (∀ (markerTop : Option Int) (navPosTop : Int) (isPinned isSticky : Bool)
        (ys : List Int),
      pinRun markerTop navPosTop isPinned isSticky ys =
        specNotifySeq isPinned
          (ys.map fun y => decide (markerTop.getD navPosTop < y))) ∧
    pinRun (some 500) 0 false false [400, 600, 700, 450, 400] =
      [true, false] := by
  constructor
  · intro markerTop navPosTop isPinned isSticky ys
    induction ys generalizing isPinned isSticky with
    | nil => rfl
    | cons y ys ih =>
      by_cases hy : markerTop.getD navPosTop < y <;> cases isPinned <;>
        simp [pinRun, handleScroll, specNotifySeq, hy, ih]
  · decide

/-- C3: on every scroll evaluation with the `onPinChange` prop supplied,
the callback is invoked exactly when the `isPinned` prop differs from the
newly computed pin state, and then with that new state as argument. -/
theorem pin_notify_iff_differs_from_prop
    (markerTop : Option Int) (navPosTop scrollY : Int)
    (isPinned isSticky : Bool) :
    (handleScroll true markerTop navPosTop scrollY isPinned true isSticky).2 =
      if isPinned =
          (handleScroll true markerTop navPosTop scrollY isPinned true
            isSticky).1
      then none
      else some (handleScroll true markerTop navPosTop scrollY isPinned true
        isSticky).1 := by
  by_cases hy : markerTop.getD navPosTop < scrollY <;> cases isPinned <;>
    simp [handleScroll, hy]

/-- C4: `activeGroupId` is sticky: once set it stays set under any further
intersection events, events whose entries are all non-intersecting leave it
unchanged, and an entry event sets it unconditionally to the entering
group's derived id (last delivered entry wins). -/
theorem active_group_sticky_last_entered
    (x : String) (events : List (Nat × List Bool)) (a : Option String)
    (gids : List Nat) (gid : Nat) :
    (deliverEvents (some x) events).isSome = true ∧
    deliverEvents a (gids.map fun g => (g, [false])) = a ∧
    deliverEvents a (events ++ [(gid, [true])]) = some (groupElemId gid) := by
  refine ⟨deliverEvents_isSome events (some x) rfl, ?_, ?_⟩
  · induction gids generalizing a with
    | nil => rfl
    | cons g gs ih => exact ih a
  · unfold deliverEvents
    rw [List.foldl_append]
    rfl

end GroupNavigation

namespace GroupNavigation

/-- C5: when the target element exists, the issued smooth-scroll target is
the element's document-relative top minus `navPosition.height + 20` when
pinned and minus `20` when floating; in particular Scenario D (pinned,
height 80, element top 1000) yields 900. -/
theorem nav_click_scroll_target
    (groupId : String) (t : Int) (isSticky : Bool) (navHeight : Int)
    (hasCb : Bool) :
    scrollTargets (handleNavClick groupId (some t) isSticky navHeight hasCb) =
      [t - (if isSticky then navHeight + 20 else 20)] ∧
    scrollTargets (handleNavClick "group-3" (some 1000) true 80 true) =
      [900] := by
  constructor
  · cases hasCb <;> cases isSticky <;> simp [handleNavClick, scrollTargets]
  · decide

/-- C6: on a section-list change (with unique group ids, as the data model
assumes), the effect's action trace is all disposals of the previously held
observers followed by all creations, the registered handles afterwards are
exactly one per group whose DOM element exists, and those handle keys are
pairwise distinct. -/
theorem observers_disposed_then_unique
    (domHasElem : Nat → Bool) (oldKeys : List String) (groups : List Group)
    (huniq : (groups.map Group.id).Nodup) :
    (observersEffect domHasElem oldKeys groups).1 =
        oldKeys.map ObsAction.dispose ++
          (groups.filter (fun g => domHasElem g.id)).map
            (fun g => ObsAction.create (groupElemId g.id)) ∧
    (observersEffect domHasElem oldKeys groups).2 =
        (groups.filter (fun g => domHasElem g.id)).map
          (fun g => groupElemId g.id) ∧
    (observersEffect domHasElem oldKeys groups).2.Nodup := by
  have hfold := observersEffect_foldl domHasElem groups
    (oldKeys.map ObsAction.dispose) []
  have h1 : (observersEffect domHasElem oldKeys groups).1 =
      oldKeys.map ObsAction.dispose ++
        (groups.filter (fun g => domHasElem g.id)).map
          (fun g => ObsAction.create (groupElemId g.id)) := by
    unfold observersEffect
    rw [hfold]
  have h2 : (observersEffect domHasElem oldKeys groups).2 =
      (groups.filter (fun g => domHasElem g.id)).map
        (fun g => groupElemId g.id) := by
    unfold observersEffect
    rw [hfold]
    simp
  refine ⟨h1, h2, ?_⟩
  rw [h2]
  have hsub : List.Sublist
      ((groups.filter (fun g => domHasElem g.id)).map Group.id)
      (groups.map Group.id) :=
    List.Sublist.map Group.id (List.filter_sublist groups)
  have hnd : ((groups.filter (fun g => domHasElem g.id)).map Group.id).Nodup :=
    huniq.sublist hsub
  have : (groups.filter (fun g => domHasElem g.id)).map
      (fun g => groupElemId g.id) =
      ((groups.filter (fun g => domHasElem g.id)).map Group.id).map
        groupElemId := by
    rw [List.map_map]
    rfl
  rw [this]
  exact hnd.map groupElemId_injective

theorem observers_disposed_then_unique_witness :
    (observersEffect (fun i => decide (i ≠ 2)) ["group-9"]
      [⟨1, "Team"⟩, ⟨2, "Docs"⟩, ⟨3, "More"⟩]).2.Nodup :=
  (observers_disposed_then_unique (fun i => decide (i ≠ 2)) ["group-9"]
    [⟨1, "Team"⟩, ⟨2, "Docs"⟩, ⟨3, "More"⟩] (by decide)).2.2

/-- C7: `handleNavClick` writes `false` to the clicked group's tooltip entry
as its very first action, for every element-presence outcome, and performs
no other tooltip write (so no other group's entry is set). -/
theorem nav_click_clears_hover_first
    (groupId : String) (elemDocTop : Option Int) (isSticky : Bool)
    (navHeight : Int) (hasCb : Bool) :
    (handleNavClick groupId elemDocTop isSticky navHeight hasCb).head? =
      some (NavEffect.setTooltip groupId false) ∧
    tooltipWrites (handleNavClick groupId elemDocTop isSticky navHeight
      hasCb) = [(groupId, false)] := by
  cases elemDocTop <;> cases hasCb <;>
    simp [handleNavClick, tooltipWrites]

/-- C8: with an empty group list the component renders nothing, the
observers effect registers no handle, and — the rendered marker and
container being absent — the geometry probe keeps the previous value and
the scroll handler changes no state and notifies nobody. -/
theorem empty_groups_engine_inactive
    (domHasElem : Nat → Bool) (oldKeys : List String) (pos : NavPos)
    (markerTop : Option Int) (navPosTop scrollY : Int)
    (isPinned hasCb isSticky : Bool) :
    render [] = none ∧
    (observersEffect domHasElem oldKeys []).2 = [] ∧
    updateNavPosition none none pos = pos ∧
    handleScroll false markerTop navPosTop scrollY isPinned hasCb isSticky =
      (isSticky, none) := by
  exact ⟨rfl, rfl, rfl, rfl⟩

/-- C9 counterexample: for the malformed derived id `"not-a-group"` the
decode yields `NaN` (`none`), yet `handleNavClick` still emits the
`onGroupClick` event — the source has no guard on the `parseInt` result, so
the claimed suppression does not happen. -/
theorem malformed_id_still_emits :
    parseIntJS (replaceFirst "not-a-group" "group-") = none ∧
    emissions (handleNavClick "not-a-group" none false 0 true) = [none] := by
  constructor
  · decide
  · decide

/-- C9 amended: when the `onGroupClick` prop is supplied, every
`handleNavClick` call emits exactly one event carrying the `parseInt`
decode of the derived id — including the malformed case, where the payload
is `NaN`; no emission happens only when the prop is absent. -/
theorem emission_always_carries_decode
    (groupId : String) (elemDocTop : Option Int) (isSticky : Bool)
    (navHeight : Int) :
    emissions (handleNavClick groupId elemDocTop isSticky navHeight true) =
      [parseIntJS (replaceFirst groupId "group-")] ∧
    emissions (handleNavClick groupId elemDocTop isSticky navHeight false) =
      [] := by
  cases elemDocTop <;> simp [handleNavClick, emissions]

/-- C10: with the `onGroupClick` prop supplied, the emitted payloads do not
depend on whether the target element exists, and for a well-formed derived
id `group-${n}` the single emission carries the numeric id `n`. -/
theorem emission_independent_of_element
    (groupId : String) (elemDocTop : Option Int) (isSticky : Bool)
    (navHeight : Int) (n : Nat) :
    emissions (handleNavClick groupId elemDocTop isSticky navHeight true) =
      emissions (handleNavClick groupId none isSticky navHeight true) ∧
    emissions
        (handleNavClick (groupElemId n) elemDocTop isSticky navHeight
          true) = [some (n : Int)] := by
  constructor
  · cases elemDocTop <;> simp [handleNavClick, emissions]
  · cases elemDocTop <;>
      simp [handleNavClick, emissions, replaceFirst_groupElemId,
        parseIntJS_natToString]

end GroupNavigation
